import Mathlib

/-!
Verification of the auth-portal core: a shallow embedding of the OAuth state
machine, the Redis-backed session store, the JWT token issuer and the RBAC
gate, together with theorems settling the specification claims.

Modelling conventions:
* Time is an integer count of unix seconds (the configured durations are whole
  hours or minutes and the token exp claim is an integer unix timestamp).
* The Redis client is modelled as an association list of entries with optional
  absolute expiry deadlines plus a set of per-command fault flags; a raised
  flag models the transport failure (network error) branch the Go code
  handles after each store round trip.
* The user repository, the OAuth code exchange and the provider user-info
  fetch are external collaborators (gorm / oauth2 / the GitHub API) and are
  modelled as oracles carried in the service environment.
-/

namespace AuthPortal

/-- Decidable equality for Except results, so that concrete runs can be
checked by decide. -/
instance exceptDecEq {ε α : Type} [DecidableEq ε] [DecidableEq α] :
    DecidableEq (Except ε α) := fun a b =>
  match a, b with
  | .error e1, .error e2 =>
    if h : e1 = e2 then isTrue (by rw [h])
    else isFalse (fun hh => by injection hh; exact h (by assumption))
  | .error _, .ok _ => isFalse (fun hh => Except.noConfusion hh)
  | .ok _, .error _ => isFalse (fun hh => Except.noConfusion hh)
  | .ok v1, .ok v2 =>
    if h : v1 = v2 then isTrue (by rw [h])
    else isFalse (fun hh => by injection hh; exact h (by assumption))

/-- gRPC status codes used by the service (google.golang.org/grpc/codes). -/
inductive Code
  | InvalidArgument
  | Unauthenticated
  | Internal
  | NotFound
  | FailedPrecondition
  | PermissionDenied
  deriving DecidableEq, Repr

/-- A gRPC status error: code plus the static part of the message the Go code
passes to status.Errorf. -/
structure GrpcError where
  code : Code
  msg : String
  deriving DecidableEq, Repr

/-- Redis keys. The Go code builds them as fmt.Sprintf with the two disjoint
prefixes oauth_state: and session:; the inductive mirrors that injective,
prefix-disjoint construction. -/
inductive RKey
  | oauthState (state : String)
  | session (id : String)
  deriving DecidableEq, Repr

/-- OAuthStateData from internal/service: the record serialized to JSON and
stored under an oauth_state: key. -/
structure OAuthStateData where
  provider : String
  redirectURL : String
  userAgent : String
  ipAddress : String
  createdAt : Int
  expiresAt : Int
  deriving DecidableEq, Repr

/-- A Redis value: session keys hold a plain string (the user id), state keys
hold the JSON-encoded OAuthStateData. A stateData value read where a plain
string is expected models a value that fails the string format parse, and a
plain string read where state data is expected models a JSON unmarshal
failure; with the disjoint key prefixes neither arises from this code. -/
inductive RVal
  | stateData (d : OAuthStateData)
  | str (s : String)
  deriving DecidableEq, Repr

/-- One stored Redis entry; deadline none models a key without a TTL. -/
structure REntry where
  key : RKey
  val : RVal
  deadline : Option Int
  deriving DecidableEq, Repr

/-- A key is live when its deadline (if any) has not been reached. -/
def REntry.liveAt (now : Int) (e : REntry) : Bool :=
  match e.deadline with
  | none => true
  | some d => decide (now < d)

/-- Which Redis commands currently fail at the transport; each flag models a
network error surfaced by the corresponding go-redis call. -/
structure FaultFlags where
  getFails : Bool := false
  setFails : Bool := false
  delFails : Bool := false
  expireFails : Bool := false
  ttlFails : Bool := false
  deriving DecidableEq, Repr

/-- The Redis store: live data plus the current transport fault state. -/
structure Redis where
  kv : List REntry
  flags : FaultFlags
  deriving DecidableEq, Repr

/-- Remove every entry stored under a key (the effect of DEL / of SET
replacing an existing key). -/
def removeKey (l : List REntry) (k : RKey) : List REntry :=
  l.filter (fun e => !(decide (e.key = k)))

/-- Find the live entry under a key. -/
def lookupKV (l : List REntry) (now : Int) (k : RKey) : Option REntry :=
  l.find? (fun e => decide (e.key = k) && e.liveAt now)

/-- Find the live entry under a key in the store. -/
def Redis.lookup (r : Redis) (now : Int) (k : RKey) : Option REntry :=
  lookupKV r.kv now k

/-- GET: an expired or absent key and a transport failure are both errors;
the Go code treats redis.Nil and transport errors through the same branch. -/
def Redis.get (r : Redis) (now : Int) (k : RKey) : Except Unit RVal :=
  if r.flags.getFails then .error ()
  else
    match r.lookup now k with
    | some e => .ok e.val
    | none => .error ()

/-- SET with expiration: a zero duration stores without TTL, a negative
duration is rejected by the server, otherwise the key is (re)written with
deadline now + ttl. -/
def Redis.set (r : Redis) (now : Int) (k : RKey) (v : RVal) (ttl : Int) :
    Except Unit Unit × Redis :=
  if r.flags.setFails then (.error (), r)
  else if ttl < 0 then (.error (), r)
  else
    (.ok (),
      { r with
        kv := ⟨k, v, if ttl = 0 then none else some (now + ttl)⟩ :: removeKey r.kv k })

/-- DEL. -/
def Redis.del (r : Redis) (k : RKey) : Except Unit Unit × Redis :=
  if r.flags.delFails then (.error (), r)
  else (.ok (), { r with kv := removeKey r.kv k })

/-- EXPIRE: false on a missing key; a non-positive duration deletes the key;
otherwise the deadline is replaced by now + ttl. -/
def Redis.expire (r : Redis) (now : Int) (k : RKey) (ttl : Int) :
    Except Unit Bool × Redis :=
  if r.flags.expireFails then (.error (), r)
  else
    match r.lookup now k with
    | none => (.ok false, r)
    | some e =>
      if ttl ≤ 0 then (.ok true, { r with kv := removeKey r.kv k })
      else (.ok true, { r with kv := ⟨k, e.val, some (now + ttl)⟩ :: removeKey r.kv k })

/-- TTL: -2 for a missing key, -1 for a key without expiration, otherwise the
remaining duration. -/
def Redis.ttlRemaining (r : Redis) (now : Int) (k : RKey) : Except Unit Int :=
  if r.flags.ttlFails then .error ()
  else
    match r.lookup now k with
    | none => .ok (-2)
    | some e =>
      match e.deadline with
      | none => .ok (-1)
      | some d => .ok (d - now)

/-- Is this a session:* key? -/
def isSessionKey : RKey → Bool
  | .session _ => true
  | .oauthState _ => false

/-- The session records present in the store. -/
def sessionEntries (r : Redis) : List REntry :=
  r.kv.filter (fun e => isSessionKey e.key)

/-! ## Configuration (configs/config.go) -/

/-- AuthConfig: the fields the login/token core reads. -/
structure AuthConfig where
  internalToken : String
  jwtSecret : String
  oauthStateExpirationDuration : Int
  deriving DecidableEq, Repr

/-- SessionConfig. -/
structure SessionConfig where
  expirationDuration : Int
  deriving DecidableEq, Repr

/-- Config: the slice of the loaded configuration the core consumes. -/
structure Config where
  auth : AuthConfig
  session : SessionConfig
  deriving DecidableEq, Repr

/-! ## Roles and users (internal/model/user.go, gen/user/v1) -/

/-- model.UserRole: a string-typed role (Go: type UserRole string). -/
structure UserRole where
  val : String
  deriving DecidableEq, Repr

/-- model.UserRoleUser. -/
def UserRoleUser : UserRole := ⟨"user"⟩

/-- model.UserRoleAdmin. -/
def UserRoleAdmin : UserRole := ⟨"admin"⟩

/-- user_v1_pb.UserRole enum numerals. The gen/ package is generated protobuf
code; the numbering follows the standard convention (unspecified = 0, then the
declared values) and the theorems below only rely on the two recognized values
being distinct. -/
def USER_ROLE_UNSPECIFIED : Int := 0

/-- Numeral of user_v1_pb.UserRole_USER_ROLE_USER. -/
def USER_ROLE_USER : Int := 1

/-- Numeral of user_v1_pb.UserRole_USER_ROLE_ADMIN. -/
def USER_ROLE_ADMIN : Int := 2

/-- UserRole.ToPb: unknown role strings coerce to the user enum value. -/
def UserRole.toPb (role : UserRole) : Int :=
  if role = UserRoleUser then USER_ROLE_USER
  else if role = UserRoleAdmin then USER_ROLE_ADMIN
  else USER_ROLE_USER

/-- UserRole.FromPb: unknown enum values coerce to the user role. -/
def UserRole.fromPb (pbRole : Int) : UserRole :=
  if pbRole = USER_ROLE_USER then UserRoleUser
  else if pbRole = USER_ROLE_ADMIN then UserRoleAdmin
  else UserRoleUser

/-- model.UserModel: the fields the auth flows read or write. -/
structure UserModel where
  id : String
  name : String
  email : String
  hashedPassword : Option String
  githubID : Option String
  lastLoginAt : Option Int
  role : UserRole
  deriving DecidableEq, Repr

/-! ## Token issuing and verification (internal/utils/token.go, pkg/auth) -/

/-- UserTokenClaims: the claim set {user_id, user_role, exp} carried by a
minted JWT. user_role is the numeric protobuf enum value (deserialized from
JSON as a number), exp an integer unix timestamp. -/
structure UserTokenClaims where
  user_id : String
  user_role : Int
  exp : Int
  deriving DecidableEq, Repr

/-- A signed JWT. The HS256 signature is modelled by recording the secret the
token was signed with: verification succeeds exactly against that secret. -/
structure SignedJWT where
  claims : UserTokenClaims
  sigSecret : String
  deriving DecidableEq, Repr

/-- auth_v1_pb.UserToken: the signed token together with its expiry. -/
structure UserToken where
  token : SignedJWT
  expiresAt : Int
  deriving DecidableEq, Repr

/-- utils.NewUserTokenClaimsWithExpiration. -/
def NewUserTokenClaimsWithExpiration (userID : String) (role : UserRole)
    (expiresAt : Int) : UserTokenClaims :=
  { user_id := userID, user_role := role.toPb, exp := expiresAt }

/-- utils.NewUserTokenWithExpiration: signs the claims with the secret. -/
def NewUserTokenWithExpiration (userID : String) (role : UserRole)
    (secret : String) (expiresAt : Int) : UserToken :=
  { token :=
      { claims := NewUserTokenClaimsWithExpiration userID role expiresAt,
        sigSecret := secret },
    expiresAt := expiresAt }

/-- utils.ValidateUserToken: jwt.ParseWithClaims verifies the signature
against the supplied secret and that the token is not expired (valid while
now is before exp). -/
def ValidateUserToken (tok : SignedJWT) (secret : String) (now : Int) :
    Option UserTokenClaims :=
  if tok.sigSecret = secret ∧ now < tok.claims.exp then some tok.claims else none

/-- auth.UserInfo: the identity the gate attaches to the call context. The
role is the numeric protobuf enum value recovered from the claims. -/
structure UserInfo where
  userID : String
  role : Int
  deriving DecidableEq, Repr

/-- The value carried in an authorization metadata entry: either an arbitrary
string or a structurally well-formed signed JWT. The model treats the two
string spaces as disjoint (a serialized JWT never coincides with a configured
secret or with garbage input). -/
inductive HeaderVal
  | plain (s : String)
  | jwtVal (t : SignedJWT)
  deriving DecidableEq, Repr

/-- strings.TrimPrefix(authHeader, "Bearer "): drops the prefix from a plain
string when present; on a serialized JWT it yields the JWT itself. -/
def dropBearer : HeaderVal → HeaderVal
  | .plain s =>
      .plain (if ("Bearer ").data.isPrefixOf s.data then
        String.mk (s.data.drop ("Bearer ").length) else s)
  | .jwtVal t => .jwtVal t

/-- auth.ParseUserToken: validates the token and reads the user_id (string)
and user_role (number) claims; a plain string is not a well-formed JWT. -/
def ParseUserToken (cred : HeaderVal) (secret : String) (now : Int) :
    Option UserInfo :=
  match cred with
  | .plain _ => none
  | .jwtVal t =>
    match ValidateUserToken t secret now with
    | none => none
    | some claims => some { userID := claims.user_id, role := claims.user_role }

/-! ## The RBAC gate (pkg/auth/interceptor.go) -/

/-- auth.convertRoleToString: unknown numeric roles default to "user". -/
def convertRoleToString (role : Int) : String :=
  if role = USER_ROLE_ADMIN then UserRoleAdmin.val
  else if role = USER_ROLE_USER then UserRoleUser.val
  else UserRoleUser.val

/-- Incoming gRPC metadata: the values of the x-token-type and authorization
keys. -/
structure Metadata where
  xTokenType : List String
  authorization : List HeaderVal
  deriving DecidableEq, Repr

/-- The fate of one inbound call at the interceptor: the handler is invoked
(with the parsed identity attached to the context on the user-token path), or
the call is rejected with a status error. -/
inductive GateOutcome
  | handler (userInfo : Option UserInfo)
  | reject (code : Code) (msg : String)
  deriving DecidableEq, Repr

/-- auth.BuildAuthInterceptor, applied to one inbound call. The enforcer is
the Casbin policy oracle (role and full method name to a decision or an
evaluation error); none models the nil enforcer left behind when NewEnforcer
failed at interceptor construction time. -/
def buildAuthInterceptor (publicMethodMap : String → Bool) (jwtSecret : String)
    (enforcer : Option (String → String → Except Unit Bool))
    (internalToken : String) (fullMethod : String) (md : Option Metadata)
    (now : Int) : GateOutcome :=
  if publicMethodMap fullMethod then .handler none
  else
    match md with
    | none => .reject .Unauthenticated ("missing metadata")
    | some m =>
      let tokenType0 := match m.xTokenType with | [] => "user" | t :: _ => t
      match m.authorization with
      | [] => .reject .Unauthenticated ("missing authorization token")
      | authHead :: _ =>
        if tokenType0 = "internal" then
          match dropBearer authHead with
          | .plain tokenStr =>
            if tokenStr ≠ internalToken then
              .reject .Unauthenticated ("invalid internal token")
            else .handler none
          | .jwtVal _ => .reject .Unauthenticated ("invalid internal token")
        else
          match ParseUserToken (dropBearer authHead) jwtSecret now with
          | none => .reject .Unauthenticated ("invalid token")
          | some userInfo =>
            match enforcer with
            | none => .handler (some userInfo)
            | some enf =>
              match enf (convertRoleToString userInfo.role) fullMethod with
              | .error _ => .reject .Internal ("authorization check failed")
              | .ok false => .reject .PermissionDenied ("insufficient permissions")
              | .ok true => .handler (some userInfo)

/-! ## External collaborators (internal/repository, internal/provider,
internal/utils password hashing, golang.org/x/oauth2) -/

/-- Outcome of repository.GetByEmail: gorm distinguishes ErrRecordNotFound
from other failures. -/
inductive RepoErr
  | recordNotFound
  | other
  deriving DecidableEq, Repr

/-- The user repository, an external collaborator modelled as an oracle.
getByGithubID returns ok none when no record matches (gorm ErrRecordNotFound
leaves the user nil) and error on any other failure; create returns the
stored record (with its generated id). -/
structure UserRepoOracle where
  getByID : String → Except Unit UserModel
  getByEmail : String → Except RepoErr UserModel
  getByGithubID : String → Except Unit (Option UserModel)
  create : UserModel → Except Unit UserModel
  update : UserModel → Except Unit Unit

/-- provider.UserInfo as returned by the GitHub provider. -/
structure ProviderUserInfo where
  id : String
  name : String
  email : String
  avatarURL : String
  deriving DecidableEq, Repr

/-- The OAuth collaborators: code-for-token exchange and the provider
user-info fetch. -/
structure OAuthOracle where
  exchange : String → Except Unit String
  getUserInfo : String → Except Unit ProviderUserInfo

/-- s.oauthConfigs: NewAuthService registers exactly the github provider. -/
def oauthConfigHas (provider : String) : Bool :=
  provider == "github"

/-- provider.GetUserProvider: the switch supports exactly github. -/
def getUserProviderOk (name : String) : Bool :=
  name == "github"

/-- The authService receiver: configuration plus the external oracles. -/
structure AuthEnv where
  config : Config
  repo : UserRepoOracle
  oauth : OAuthOracle
  verifyPassword : String → String → Except Unit Bool

/-! ## OAuth state management (internal/service authService) -/

/-- authService.generateState: stores the state record under the fresh random
nonce with the configured TTL. The 256-bit random nonce is supplied as the
freshState argument. -/
def generateState (env : AuthEnv) (r : Redis) (now : Int)
    (freshState provider redirectURL userAgent ipAddress : String) :
    Except GrpcError String × Redis :=
  let stateData : OAuthStateData :=
    { provider := provider, redirectURL := redirectURL, userAgent := userAgent,
      ipAddress := ipAddress, createdAt := now,
      expiresAt := now + env.config.auth.oauthStateExpirationDuration }
  match r.set now (RKey.oauthState freshState) (RVal.stateData stateData)
      env.config.auth.oauthStateExpirationDuration with
  | (.error _, r1) => (.error ⟨.Internal, "failed to store state"⟩, r1)
  | (.ok _, r1) => (.ok freshState, r1)

/-- authService.deleteState. -/
def deleteState (r : Redis) (state : String) : Except Unit Unit × Redis :=
  r.del (RKey.oauthState state)

/-- authService.validateState: reads the record, applies the defense-in-depth
expiry check (cleaning up an expired record, with a delete failure only
logged), then the soft user-agent and IP consistency checks. -/
def validateState (_env : AuthEnv) (r : Redis) (now : Int)
    (state userAgent ipAddress : String) :
    Except GrpcError OAuthStateData × Redis :=
  match r.get now (RKey.oauthState state) with
  | .error _ => (.error ⟨.InvalidArgument, "invalid or expired state"⟩, r)
  | .ok v =>
    match v with
    | .str _ => (.error ⟨.Internal, "failed to unmarshal state data"⟩, r)
    | .stateData stateData =>
      if now > stateData.expiresAt then
        (.error ⟨.InvalidArgument, "state has expired"⟩, (deleteState r state).2)
      else if stateData.userAgent ≠ "" ∧ userAgent ≠ "" ∧
          stateData.userAgent ≠ userAgent then
        (.error ⟨.InvalidArgument,
          "user agent mismatch - possible session hijacking"⟩, r)
      else if stateData.ipAddress ≠ "" ∧ ipAddress ≠ "" ∧
          stateData.ipAddress ≠ ipAddress then
        (.error ⟨.InvalidArgument,
          "IP address mismatch - possible session hijacking"⟩, r)
      else
        (.ok stateData, r)

/-! ## Session management (internal/service authService) -/

/-- authService.createSession: stores the user id under the fresh random
session id with the configured session TTL. -/
def createSession (env : AuthEnv) (r : Redis) (now : Int)
    (freshSession userID : String) : Except GrpcError String × Redis :=
  match r.set now (RKey.session freshSession) (RVal.str userID)
      env.config.session.expirationDuration with
  | (.error _, r1) => (.error ⟨.Internal, "failed to store session"⟩, r1)
  | (.ok _, r1) => (.ok freshSession, r1)

/-- fmt.Sscanf with the %s verb: skips leading whitespace and reads one
maximal run of non-space characters, failing on empty input. -/
def sscanfString (s : String) : Option String :=
  let tok :=
    (s.data.dropWhile (fun c => c.isWhitespace)).takeWhile (fun c => !c.isWhitespace)
  if tok = [] then none else some (String.mk tok)

/-- authService.refreshSession: replaces the session TTL with the full
configured duration. -/
def refreshSession (env : AuthEnv) (r : Redis) (now : Int)
    (sessionID : String) : Except Unit Bool × Redis :=
  r.expire now (RKey.session sessionID) env.config.session.expirationDuration

/-- authService.getUserIDFromSession: resolves the session and, as a side
effect, refreshes its TTL; a refresh failure is logged but does not fail the
request. -/
def getUserIDFromSession (env : AuthEnv) (r : Redis) (now : Int)
    (sessionID : String) : Except GrpcError String × Redis :=
  match r.get now (RKey.session sessionID) with
  | .error _ => (.error ⟨.Unauthenticated, "invalid or expired session"⟩, r)
  | .ok v =>
    match v with
    | .stateData _ => (.error ⟨.Internal, "invalid session data"⟩, r)
    | .str userIDStr =>
      match sscanfString userIDStr with
      | none => (.error ⟨.Internal, "invalid session data"⟩, r)
      | some userID => (.ok userID, (refreshSession env r now sessionID).2)

/-- authService.getSessionExpirationTime: now + TTL, mapping the -2 and -1
sentinels to their status errors. -/
def getSessionExpirationTime (r : Redis) (now : Int) (sessionID : String) :
    Except GrpcError Int :=
  match r.ttlRemaining now (RKey.session sessionID) with
  | .error _ => .error ⟨.Internal, "failed to get session TTL"⟩
  | .ok ttl =>
    if ttl = -2 then .error ⟨.Unauthenticated, "session not found"⟩
    else if ttl = -1 then .error ⟨.Internal, "session has no expiration"⟩
    else .ok (now + ttl)

/-! ## The RPC methods (internal/service authService) -/

/-- proto.GetUserTokenRequest. -/
structure GetUserTokenRequest where
  sessionId : String
  deriving DecidableEq, Repr

/-- proto.LoginByOAuthRequest. -/
structure LoginByOAuthRequest where
  code : String
  state : String
  deriving DecidableEq, Repr

/-- proto.LoginByPasswordRequest. -/
structure LoginByPasswordRequest where
  email : String
  password : String
  deriving DecidableEq, Repr

/-- proto.LoginSession. -/
structure LoginSession where
  id : String
  expiresAt : Int
  deriving DecidableEq, Repr

/-- The tail shared verbatim by both login flows: create the session, then
read its expiration for the response. -/
def finishLogin (env : AuthEnv) (r : Redis) (now : Int)
    (freshSession userID : String) : Except GrpcError LoginSession × Redis :=
  match createSession env r now freshSession userID with
  | (.error _, r1) => (.error ⟨.Internal, "failed to create session"⟩, r1)
  | (.ok sessionID, r1) =>
    match getSessionExpirationTime r1 now sessionID with
    | .error _ => (.error ⟨.Internal, "failed to get session expiration"⟩, r1)
    | .ok expiresAt => (.ok ⟨sessionID, expiresAt⟩, r1)

/-- authService.GetUserToken: resolve the session (refreshing its TTL), read
the expiry after the refresh, load the user and mint a JWT bound to the
session expiry. -/
def GetUserToken (env : AuthEnv) (r : Redis) (now : Int)
    (req : GetUserTokenRequest) : Except GrpcError UserToken × Redis :=
  if req.sessionId = "" then
    (.error ⟨.InvalidArgument, "session_id is required"⟩, r)
  else
    match getUserIDFromSession env r now req.sessionId with
    | (.error e, r1) => (.error e, r1)
    | (.ok userID, r1) =>
      match getSessionExpirationTime r1 now req.sessionId with
      | .error _ => (.error ⟨.Internal, "failed to get session expiration"⟩, r1)
      | .ok sessionExpiresAt =>
        match env.repo.getByID userID with
        | .error _ => (.error ⟨.Internal, "failed to get user"⟩, r1)
        | .ok user =>
          (.ok (NewUserTokenWithExpiration user.id user.role
              env.config.auth.jwtSecret sessionExpiresAt), r1)

/-- authService.LoginByOAuth: validate the state, delete it (a failure here
fails the call with Internal), exchange the code, fetch the identity, find or
create the user, then create the session. The Go find-or-create block is
guarded by stateData.Provider == "github"; that guard is always true once the
oauthConfigs lookup succeeded, since github is the only configured provider,
so the model inlines the branch. -/
def LoginByOAuth (env : AuthEnv) (r : Redis) (now : Int)
    (freshSession userAgent ipAddress : String) (req : LoginByOAuthRequest) :
    Except GrpcError LoginSession × Redis :=
  if req.code = "" ∨ req.state = "" then
    (.error ⟨.InvalidArgument, "code and state are required"⟩, r)
  else
    match validateState env r now req.state userAgent ipAddress with
    | (.error e, r1) => (.error e, r1)
    | (.ok stateData, r1) =>
      match deleteState r1 req.state with
      | (.error _, r2) => (.error ⟨.Internal, "failed to delete used state"⟩, r2)
      | (.ok _, r2) =>
        if oauthConfigHas stateData.provider then
          match env.oauth.exchange req.code with
          | .error _ =>
            (.error ⟨.Internal, "failed to exchange code for token"⟩, r2)
          | .ok accessToken =>
            if getUserProviderOk stateData.provider then
              match env.oauth.getUserInfo accessToken with
              | .error _ => (.error ⟨.Internal, "failed to get user info"⟩, r2)
              | .ok userInfo =>
                match env.repo.getByGithubID userInfo.id with
                | .error _ => (.error ⟨.Internal, "failed to query user"⟩, r2)
                | .ok none =>
                  match env.repo.create
                      { id := "", name := userInfo.name,
                        email := userInfo.email, hashedPassword := none,
                        githubID := some userInfo.id, lastLoginAt := some now,
                        role := UserRoleUser } with
                  | .error _ => (.error ⟨.Internal, "failed to create user"⟩, r2)
                  | .ok user => finishLogin env r2 now freshSession user.id
                | .ok (some u) =>
                  match env.repo.update { u with lastLoginAt := some now } with
                  | .error _ => (.error ⟨.Internal, "failed to update user"⟩, r2)
                  | .ok _ => finishLogin env r2 now freshSession u.id
            else (.error ⟨.Internal, "failed to get user provider"⟩, r2)
        else (.error ⟨.InvalidArgument, "unsupported provider"⟩, r2)

/-- authService.LoginByPassword. -/
def LoginByPassword (env : AuthEnv) (r : Redis) (now : Int)
    (freshSession : String) (req : LoginByPasswordRequest) :
    Except GrpcError LoginSession × Redis :=
  if req.email = "" ∨ req.password = "" then
    (.error ⟨.InvalidArgument, "email and password are required"⟩, r)
  else
    match env.repo.getByEmail req.email with
    | .error .recordNotFound => (.error ⟨.NotFound, "invalid credentials"⟩, r)
    | .error .other => (.error ⟨.Internal, "failed to query user"⟩, r)
    | .ok user =>
      match user.hashedPassword with
      | none =>
        (.error ⟨.FailedPrecondition,
          "password login not available for this account"⟩, r)
      | some hp =>
        match env.verifyPassword req.password hp with
        | .error _ => (.error ⟨.Internal, "failed to verify password"⟩, r)
        | .ok false => (.error ⟨.Unauthenticated, "invalid credentials"⟩, r)
        | .ok true =>
          match env.repo.update { user with lastLoginAt := some now } with
          | .error _ => (.error ⟨.Internal, "failed to update user"⟩, r)
          | .ok _ => finishLogin env r now freshSession user.id

/-- Either login flow, for statements quantifying over both. -/
inductive LoginCall
  | oauth (userAgent ipAddress : String) (req : LoginByOAuthRequest)
  | password (req : LoginByPasswordRequest)

/-- Dispatch a login call. -/
def runLogin (env : AuthEnv) (r : Redis) (now : Int) (freshSession : String) :
    LoginCall → Except GrpcError LoginSession × Redis
  | .oauth ua ip req => LoginByOAuth env r now freshSession ua ip req
  | .password req => LoginByPassword env r now freshSession req

/-! ## Concrete instances used by the witnesses and counterexamples -/

/-- A sample stored user. -/
def wUser : UserModel :=
  ⟨"u1", "Alice", "a@b.c", some ("hash"), some ("gh1"), some 0, UserRoleUser⟩

/-- A sample service environment: the github provider configured, one known
user, one valid authorization code. -/
def wEnv : AuthEnv :=
  { config :=
      { auth :=
          { internalToken := "itok", jwtSecret := "sec",
            oauthStateExpirationDuration := 600 },
        session := { expirationDuration := 3600 } },
    repo :=
      { getByID := fun uid => if uid = "u1" then .ok wUser else .error (),
        getByEmail := fun em =>
          if em = "a@b.c" then .ok wUser else .error .recordNotFound,
        getByGithubID := fun gid =>
          if gid = "gh1" then .ok (some wUser) else .ok none,
        create := fun u => .ok { u with id := "u2" },
        update := fun _ => .ok () },
    oauth :=
      { exchange := fun c => if c = "validcode" then .ok ("atok") else .error (),
        getUserInfo := fun t =>
          if t = "atok" then .ok ⟨"gh1", "Alice", "a@b.c", ""⟩ else .error () },
    verifyPassword := fun p _ => .ok (p == "pw") }

/-- A sample unexpired OAuth state record for the github provider. -/
def wStateData : OAuthStateData := ⟨"github", "", "", "", 0, 600⟩

/-- A store holding one live session. -/
def wSessionStore : Redis :=
  ⟨[⟨RKey.session ("abc"), RVal.str ("u1"), some 1000⟩], {}⟩

/-- The store after the witness GetUserToken call (TTL reset to 3600). -/
def wSessionStoreOut : Redis :=
  ⟨[⟨RKey.session ("abc"), RVal.str ("u1"), some 3600⟩], {}⟩

/-- The token minted by the witness GetUserToken call. -/
def wTok : UserToken := ⟨⟨⟨"u1", 1, 3600⟩, "sec"⟩, 3600⟩

/-- A store holding one live OAuth state record. -/
def wStateStore : Redis :=
  ⟨[⟨RKey.oauthState ("s"), RVal.stateData wStateData, some 600⟩], {}⟩

/-- The store after the witness LoginByOAuth call: the state consumed, the
fresh session written. -/
def wStateStoreOut : Redis :=
  ⟨[⟨RKey.session ("f1"), RVal.str ("u1"), some 3600⟩], {}⟩

/-- A session store whose TTL refresh (EXPIRE) hits a transport failure. -/
def cexExpireFailStore : Redis :=
  ⟨[⟨RKey.session ("abc"), RVal.str ("u1"), some 100⟩], { expireFails := true }⟩

/-- An empty store whose TTL read fails at the transport. -/
def cexTtlFailStore : Redis := ⟨[], { ttlFails := true }⟩

/-- A state store whose DEL fails at the transport. -/
def cexDelFailStore : Redis :=
  ⟨[⟨RKey.oauthState ("s"), RVal.stateData wStateData, some 600⟩],
    { delFails := true }⟩

/-- A well-formed JWT signed with the secret sec, role numeral 2 (admin). -/
def cexJwt : SignedJWT := ⟨⟨"u1", 2, 10⟩, "sec"⟩

/-- Metadata carrying that JWT with no x-token-type entry. -/
def cexMd : Metadata := ⟨[], [HeaderVal.jwtVal cexJwt]⟩

/-! ## Store lemmas -/

theorem find?_filter_of_imp {α : Type} (l : List α) (p q : α → Bool)
    (h : ∀ a, p a = true → q a = true) : (l.filter q).find? p = l.find? p := by
  induction l with
  | nil => rfl
  | cons a tl ih =>
    by_cases hq : q a = true
    · by_cases hp : p a = true
      · simp [List.filter_cons, hq, List.find?_cons, hp]
      · simp [List.filter_cons, hq, List.find?_cons, hp, ih]
    · have hp : ¬ p a = true := fun hpa => hq (h a hpa)
      simp [List.filter_cons, hq, List.find?_cons, hp, ih]

theorem lookupKV_removeKey_self (l : List REntry) (now : Int) (k : RKey) :
    lookupKV (removeKey l k) now k = none := by
  unfold lookupKV removeKey
  rw [List.find?_eq_none]
  intro e he
  have hne := List.of_mem_filter he
  simp only [Bool.not_eq_true', decide_eq_false_iff_not] at hne
  simp [hne]

theorem lookupKV_removeKey_ne (l : List REntry) (now : Int) (k k2 : RKey)
    (h : k2 ≠ k) : lookupKV (removeKey l k) now k2 = lookupKV l now k2 := by
  unfold lookupKV removeKey
  apply find?_filter_of_imp
  intro e he
  simp only [Bool.and_eq_true, decide_eq_true_eq] at he
  simp [he.1, h]

theorem lookupKV_some (l : List REntry) (now : Int) (k : RKey) (e : REntry)
    (h : lookupKV l now k = some e) : e.key = k ∧ e.liveAt now = true := by
  unfold lookupKV at h
  have := List.find?_some h
  simpa using this

theorem get_ok_inv (r : Redis) (now : Int) (k : RKey) (v : RVal)
    (h : r.get now k = .ok v) :
    r.flags.getFails = false ∧ ∃ e, r.lookup now k = some e ∧ e.val = v := by
  unfold Redis.get at h
  split at h
  · exact absurd h (by simp)
  · next hflag =>
    split at h
    · next e he =>
      refine ⟨by simpa using hflag, e, he, ?_⟩
      injection h
    · exact absurd h (by simp)

theorem set_ok_inv (r : Redis) (now : Int) (k : RKey) (v : RVal) (ttl : Int)
    (u : Unit) (r1 : Redis) (h : r.set now k v ttl = (.ok u, r1)) :
    r.flags.setFails = false ∧ ¬ ttl < 0 ∧
      r1 = { r with
        kv := ⟨k, v, if ttl = 0 then none else some (now + ttl)⟩ :: removeKey r.kv k } := by
  unfold Redis.set at h
  split at h
  · next hf => simp at h
  · next hf =>
    split at h
    · simp at h
    · next ht =>
      refine ⟨by simpa using hf, ht, ?_⟩
      injection h with h1 h2
      exact h2.symm

theorem del_ok_inv (r : Redis) (k : RKey) (u : Unit) (r1 : Redis)
    (h : r.del k = (.ok u, r1)) :
    r.flags.delFails = false ∧ r1 = { r with kv := removeKey r.kv k } := by
  unfold Redis.del at h
  split at h
  · simp at h
  · next hf =>
    refine ⟨by simpa using hf, ?_⟩
    injection h with h1 h2
    exact h2.symm

theorem expire_fault (r : Redis) (now : Int) (k : RKey) (ttl : Int)
    (hf : r.flags.expireFails = true) : (r.expire now k ttl).2 = r := by
  unfold Redis.expire
  simp [hf]

theorem expire_lookup_val (r : Redis) (now : Int) (k : RKey) (ttl : Int)
    (e1 : REntry) (h : ((r.expire now k ttl).2).lookup now k = some e1) :
    ∃ e0, r.lookup now k = some e0 ∧ e1.val = e0.val := by
  unfold Redis.expire at h
  split at h
  · exact ⟨e1, h, rfl⟩
  · split at h
    · exact ⟨e1, h, rfl⟩
    · next e0 he0 =>
      split at h
      · rw [Redis.lookup] at h
        rw [lookupKV_removeKey_self] at h
        exact absurd h (by simp)
      · next ht =>
        rw [Redis.lookup] at h
        unfold lookupKV at h
        rw [List.find?_cons_of_pos] at h
        · refine ⟨e0, he0, ?_⟩
          have := (Option.some.injEq _ _).mp h
          rw [← this]
        · have hlive : REntry.liveAt now ⟨k, e0.val, some (now + ttl)⟩ = true := by
            simp only [REntry.liveAt, decide_eq_true_eq]
            omega
          simp [hlive]

theorem expire_nofault_lookup (r : Redis) (now : Int) (k : RKey) (ttl : Int)
    (e0 : REntry) (hf : r.flags.expireFails = false)
    (h0 : r.lookup now k = some e0) (ht : 0 < ttl) :
    (r.expire now k ttl).2.lookup now k = some ⟨k, e0.val, some (now + ttl)⟩ := by
  unfold Redis.expire
  rw [hf]
  simp only [Bool.false_eq_true, if_false]
  rw [Redis.lookup] at h0 ⊢
  split
  · next hnone => rw [Redis.lookup] at hnone; rw [h0] at hnone; exact absurd hnone (by simp)
  · next e he =>
    rw [Redis.lookup] at he
    rw [h0] at he
    have he' : e0 = e := by injection he
    subst he'
    split
    · omega
    · unfold lookupKV
      rw [List.find?_cons_of_pos]
      have hlive : REntry.liveAt now ⟨k, e0.val, some (now + ttl)⟩ = true := by
        simp only [REntry.liveAt, decide_eq_true_eq]
        omega
      simp [hlive]

theorem ttlRemaining_ok_inv (r : Redis) (now : Int) (k : RKey) (t : Int)
    (h : r.ttlRemaining now k = .ok t) (h2 : t ≠ -2) (h3 : t ≠ -1) :
    ∃ e d, r.lookup now k = some e ∧ e.deadline = some d ∧ t = d - now ∧ now < d := by
  unfold Redis.ttlRemaining at h
  split at h
  · exact absurd h (by simp)
  · split at h
    · next hnone =>
      exfalso; apply h2; injection h with h4; omega
    · next e he =>
      split at h
      · exfalso; apply h3; injection h with h4; omega
      · next d hd =>
        have hkey := lookupKV_some r.kv now k e he
        have hlive := hkey.2
        rw [REntry.liveAt, hd] at hlive
        simp only [decide_eq_true_eq] at hlive
        exact ⟨e, d, he, hd, by injection h with h4; omega, hlive⟩

theorem getSessionExpirationTime_ok_inv (r : Redis) (now : Int) (sid : String)
    (t : Int) (h : getSessionExpirationTime r now sid = .ok t) :
    ∃ e, r.lookup now (RKey.session sid) = some e ∧ e.deadline = some t ∧ now < t := by
  unfold getSessionExpirationTime at h
  split at h
  · exact absurd h (by simp)
  · next ttl httl =>
    split at h
    · exact absurd h (by simp)
    · split at h
      · exact absurd h (by simp)
      · next hne2 hne1 =>
        have ht : t = now + ttl := by injection h with h4; omega
        obtain ⟨e, d, he, hd, hdt, hlt⟩ :=
          ttlRemaining_ok_inv r now (RKey.session sid) ttl httl hne2 hne1
        refine ⟨e, he, ?_, by omega⟩
        rw [hd]
        congr 1
        omega

/-! ## Service-level inversion lemmas -/

theorem validateState_ok_inv (env : AuthEnv) (r : Redis) (now : Int)
    (st ua ip : String) (sd : OAuthStateData) (r1 : Redis)
    (h : validateState env r now st ua ip = (.ok sd, r1)) :
    r1 = r ∧ r.get now (RKey.oauthState st) = .ok (RVal.stateData sd) ∧
      ¬ now > sd.expiresAt := by
  unfold validateState at h
  cases hg : r.get now (RKey.oauthState st) with
  | error u => rw [hg] at h; simp at h
  | ok v =>
    rw [hg] at h
    cases v with
    | str s => simp at h
    | stateData d =>
      dsimp only at h
      by_cases hexp : now > d.expiresAt
      · rw [if_pos hexp] at h; simp at h
      · rw [if_neg hexp] at h
        by_cases hua : d.userAgent ≠ "" ∧ ua ≠ "" ∧ d.userAgent ≠ ua
        · rw [if_pos hua] at h; simp at h
        · rw [if_neg hua] at h
          by_cases hip : d.ipAddress ≠ "" ∧ ip ≠ "" ∧ d.ipAddress ≠ ip
          · rw [if_pos hip] at h; simp at h
          · rw [if_neg hip] at h
            injection h with h1 h2
            injection h1 with h3
            subst h3
            exact ⟨h2.symm, hg ▸ rfl, hexp⟩

theorem getUserIDFromSession_ok_inv (env : AuthEnv) (r : Redis) (now : Int)
    (sid : String) (uid : String) (r1 : Redis)
    (h : getUserIDFromSession env r now sid = (.ok uid, r1)) :
    r1 = (refreshSession env r now sid).2 ∧
      ∃ s, r.get now (RKey.session sid) = .ok (RVal.str s) ∧
        sscanfString s = some uid := by
  unfold getUserIDFromSession at h
  cases hg : r.get now (RKey.session sid) with
  | error u => rw [hg] at h; simp at h
  | ok v =>
    rw [hg] at h
    cases v with
    | stateData d => simp at h
    | str s =>
      dsimp only at h
      cases hs : sscanfString s with
      | none => rw [hs] at h; simp at h
      | some uid0 =>
        rw [hs] at h
        dsimp only at h
        injection h with h1 h2
        injection h1 with h3
        subst h3
        exact ⟨h2.symm, s, hg ▸ rfl, hs⟩

/-! ## Claim C1 -/

/-- Claim C1: for every successful GetUserToken call, the minted token's exp
claim equals the issuing session's expiry in the post-call store (the expiry
read after the call's own TTL refresh), the response expiry equals that same
instant, and verifying the token with the configured signing secret succeeds
and yields the same subject id and role that were minted. -/
theorem getUserToken_exp_binds_session (env : AuthEnv) (r : Redis) (now : Int)
    (req : GetUserTokenRequest) (tok : UserToken) (rOut : Redis)
    (h : GetUserToken env r now req = (.ok tok, rOut)) :
    ∃ e uidStr uid user,
      rOut.lookup now (RKey.session req.sessionId) = some e ∧
      e.val = RVal.str uidStr ∧
      sscanfString uidStr = some uid ∧
      env.repo.getByID uid = .ok user ∧
      e.deadline = some tok.token.claims.exp ∧
      tok.expiresAt = tok.token.claims.exp ∧
      tok.token.claims.user_id = user.id ∧
      tok.token.claims.user_role = UserRole.toPb user.role ∧
      ParseUserToken (HeaderVal.jwtVal tok.token) env.config.auth.jwtSecret now =
        some ⟨user.id, UserRole.toPb user.role⟩ := by
  unfold GetUserToken at h
  by_cases hsid : req.sessionId = ""
  · rw [if_pos hsid] at h; simp at h
  · rw [if_neg hsid] at h
    cases hG : getUserIDFromSession env r now req.sessionId with
    | mk res1 r1 =>
      rw [hG] at h
      cases res1 with
      | error e => simp at h
      | ok uid =>
        dsimp only at h
        cases hT : getSessionExpirationTime r1 now req.sessionId with
        | error e => rw [hT] at h; simp at h
        | ok t =>
          rw [hT] at h
          dsimp only at h
          cases hU : env.repo.getByID uid with
          | error e => rw [hU] at h; simp at h
          | ok user =>
            rw [hU] at h
            dsimp only at h
            injection h with h1 h2
            injection h1 with h3
            subst h2
            subst h3
            obtain ⟨hr1, s, hget, hscan⟩ :=
              getUserIDFromSession_ok_inv env r now req.sessionId uid r1 hG
            obtain ⟨e, hlook, hdl, hlt⟩ :=
              getSessionExpirationTime_ok_inv r1 now req.sessionId t hT
            have hval : e.val = RVal.str s := by
              have hlook2 : ((refreshSession env r now req.sessionId).2).lookup now
                  (RKey.session req.sessionId) = some e := by rw [← hr1]; exact hlook
              obtain ⟨e0, he0, hv01⟩ := expire_lookup_val r now
                (RKey.session req.sessionId) env.config.session.expirationDuration e hlook2
              obtain ⟨hfl, e02, he02, hv02⟩ :=
                get_ok_inv r now (RKey.session req.sessionId) (RVal.str s) hget
              rw [he0] at he02
              have he012 : e0 = e02 := by injection he02
              rw [hv01, he012, hv02]
            refine ⟨e, s, uid, user, hlook, hval, hscan, hU, hdl, rfl, rfl, rfl, ?_⟩
            unfold ParseUserToken ValidateUserToken
            simp only [NewUserTokenWithExpiration, NewUserTokenClaimsWithExpiration]
            simp [hlt]

/-- Witness for C1: a concrete GetUserToken call on a live session. -/
theorem getUserToken_exp_binds_session_witness :
    ∃ e uidStr uid user,
      wSessionStoreOut.lookup 0 (RKey.session ("abc")) = some e ∧
      e.val = RVal.str uidStr ∧
      sscanfString uidStr = some uid ∧
      wEnv.repo.getByID uid = .ok user ∧
      e.deadline = some wTok.token.claims.exp ∧
      wTok.expiresAt = wTok.token.claims.exp ∧
      wTok.token.claims.user_id = user.id ∧
      wTok.token.claims.user_role = UserRole.toPb user.role ∧
      ParseUserToken (HeaderVal.jwtVal wTok.token) wEnv.config.auth.jwtSecret 0 =
        some ⟨user.id, UserRole.toPb user.role⟩ :=
  getUserToken_exp_binds_session wEnv wSessionStore 0 ⟨"abc"⟩ wTok wSessionStoreOut
    (by decide)

theorem expire_nofault_nonpos (r : Redis) (now : Int) (k : RKey) (ttl : Int)
    (e0 : REntry) (hf : r.flags.expireFails = false)
    (h0 : r.lookup now k = some e0) (ht : ttl ≤ 0) :
    (r.expire now k ttl).2.lookup now k = none := by
  unfold Redis.expire
  rw [hf]
  simp only [Bool.false_eq_true, if_false]
  split
  · next hnone => rw [h0] at hnone; exact absurd hnone (by simp)
  · next e he =>
    split
    · exact lookupKV_removeKey_self r.kv now k
    · omega

theorem getUserToken_ok_inv (env : AuthEnv) (r : Redis) (now : Int)
    (req : GetUserTokenRequest) (tok : UserToken) (rOut : Redis)
    (h : GetUserToken env r now req = (.ok tok, rOut)) :
    ∃ uid t user,
      getUserIDFromSession env r now req.sessionId = (.ok uid, rOut) ∧
      getSessionExpirationTime rOut now req.sessionId = .ok t ∧
      env.repo.getByID uid = .ok user ∧
      tok = NewUserTokenWithExpiration user.id user.role
        env.config.auth.jwtSecret t := by
  unfold GetUserToken at h
  by_cases hsid : req.sessionId = ""
  · rw [if_pos hsid] at h; simp at h
  · rw [if_neg hsid] at h
    cases hG : getUserIDFromSession env r now req.sessionId with
    | mk res1 r1 =>
      rw [hG] at h
      cases res1 with
      | error e => simp at h
      | ok uid =>
        dsimp only at h
        cases hT : getSessionExpirationTime r1 now req.sessionId with
        | error e => rw [hT] at h; simp at h
        | ok t =>
          rw [hT] at h
          dsimp only at h
          cases hU : env.repo.getByID uid with
          | error e => rw [hU] at h; simp at h
          | ok user =>
            rw [hU] at h
            dsimp only at h
            injection h with h1 h2
            injection h1 with h3
            subst h2
            exact ⟨uid, t, user, rfl, hT, hU, h3.symm⟩

/-! ## Claim C7 -/

/-- Claim C7 counterexample: when the TTL-refresh EXPIRE round trip fails at
the store, GetUserToken still succeeds (the code logs and continues) but the
session TTL has not been reset to the full configured lifetime: the deadline
stays at 100 instead of now + 3600. -/
theorem getUserToken_refresh_skip_cex :
    (GetUserToken wEnv cexExpireFailStore 0 ⟨"abc"⟩).1 =
      .ok ⟨⟨⟨"u1", 1, 100⟩, "sec"⟩, 100⟩ ∧
    (GetUserToken wEnv cexExpireFailStore 0 ⟨"abc"⟩).2.lookup 0
        (RKey.session ("abc")) =
      some ⟨RKey.session ("abc"), RVal.str ("u1"), some 100⟩ ∧
    (100 : Int) ≠ 0 + wEnv.config.session.expirationDuration := by decide

/-- Claim C7 (amended): a successful GetUserToken call never shortens the
session deadline, and whenever the EXPIRE round trip does not fail it resets
the deadline to the full configured session lifetime counted from now;
if the refresh fails at the store, the call still succeeds with the deadline
unchanged. -/
theorem getUserToken_slides_expiry (env : AuthEnv) (r : Redis) (now : Int)
    (req : GetUserTokenRequest) (tok : UserToken) (rOut : Redis)
    (e0 : REntry) (d0 : Int)
    (h : GetUserToken env r now req = (.ok tok, rOut))
    (h0 : r.lookup now (RKey.session req.sessionId) = some e0)
    (hd : e0.deadline = some d0)
    (hb : d0 ≤ now + env.config.session.expirationDuration) :
    ∃ e d, rOut.lookup now (RKey.session req.sessionId) = some e ∧
      e.deadline = some d ∧ d0 ≤ d ∧
      (r.flags.expireFails = false →
        d = now + env.config.session.expirationDuration) := by
  obtain ⟨uid, t, user, hG, hT, hU, htok⟩ :=
    getUserToken_ok_inv env r now req tok rOut h
  obtain ⟨hr1, s, hget, hscan⟩ :=
    getUserIDFromSession_ok_inv env r now req.sessionId uid rOut hG
  obtain ⟨e, hlook, hdl, hlt⟩ :=
    getSessionExpirationTime_ok_inv rOut now req.sessionId t hT
  cases hflag : r.flags.expireFails with
  | true =>
    have hrOut : rOut = r := by
      rw [hr1]
      exact expire_fault r now (RKey.session req.sessionId)
        env.config.session.expirationDuration hflag
    refine ⟨e, t, hlook, hdl, ?_, fun hc => by simp [hflag] at hc⟩
    rw [hrOut] at hlook
    rw [h0] at hlook
    have he : e0 = e := by injection hlook
    rw [← he] at hdl
    rw [hd] at hdl
    have : d0 = t := by injection hdl
    omega
  | false =>
    by_cases hpos : 0 < env.config.session.expirationDuration
    · have hlook2 := expire_nofault_lookup r now (RKey.session req.sessionId)
        env.config.session.expirationDuration e0 hflag h0 hpos
      rw [refreshSession] at hr1
      rw [← hr1] at hlook2
      have hcomb : some (⟨RKey.session req.sessionId, e0.val,
          some (now + env.config.session.expirationDuration)⟩ : REntry) = some e :=
        hlook2.symm.trans hlook
      have he : (⟨RKey.session req.sessionId, e0.val,
          some (now + env.config.session.expirationDuration)⟩ : REntry) = e := by
        injection hcomb
      have hdl2 : e.deadline = some (now + env.config.session.expirationDuration) := by
        rw [← he]
      have ht2 : t = now + env.config.session.expirationDuration := by
        have h5 := hdl.symm.trans hdl2
        injection h5
      exact ⟨e, t, hlook, hdl, by omega, fun _ => ht2⟩
    · have hnone := expire_nofault_nonpos r now (RKey.session req.sessionId)
        env.config.session.expirationDuration e0 hflag h0 (by omega)
      rw [refreshSession] at hr1
      rw [← hr1] at hnone
      rw [hnone] at hlook
      exact absurd hlook (by simp)

/-- Witness for the amended C7 at a concrete store with no faults. -/
theorem getUserToken_slides_expiry_witness :
    ∃ e d, wSessionStoreOut.lookup 0 (RKey.session ("abc")) = some e ∧
      e.deadline = some d ∧ (1000 : Int) ≤ d ∧
      (wSessionStore.flags.expireFails = false →
        d = 0 + wEnv.config.session.expirationDuration) :=
  getUserToken_slides_expiry wEnv wSessionStore 0 ⟨"abc"⟩ wTok wSessionStoreOut
    ⟨RKey.session ("abc"), RVal.str ("u1"), some 1000⟩ 1000
    (by decide) (by decide) (by decide) (by decide)

theorem lookupKV_cons_ne (e : REntry) (l : List REntry) (now : Int) (k : RKey)
    (h : e.key ≠ k) : lookupKV (e :: l) now k = lookupKV l now k := by
  unfold lookupKV
  rw [List.find?_cons_of_neg]
  simp [h]

theorem finishLogin_ok_inv (env : AuthEnv) (r : Redis) (now : Int)
    (fresh uid : String) (sess : LoginSession) (rOut : Redis)
    (h : finishLogin env r now fresh uid = (.ok sess, rOut)) :
    rOut = { r with kv :=
      (⟨RKey.session fresh, RVal.str uid,
        if env.config.session.expirationDuration = 0 then none
        else some (now + env.config.session.expirationDuration)⟩ ::
        removeKey r.kv (RKey.session fresh)) } ∧
    sess.id = fresh := by
  unfold finishLogin at h
  cases hC : createSession env r now fresh uid with
  | mk resC r1 =>
    rw [hC] at h
    cases resC with
    | error e => simp at h
    | ok sid =>
      dsimp only at h
      cases hT : getSessionExpirationTime r1 now sid with
      | error e => rw [hT] at h; simp at h
      | ok t =>
        rw [hT] at h
        dsimp only at h
        injection h with h1 h2
        injection h1 with h3
        subst h2
        -- invert createSession
        unfold createSession at hC
        cases hS : Redis.set r now (RKey.session fresh) (RVal.str uid)
            env.config.session.expirationDuration with
        | mk resS r2 =>
          rw [hS] at hC
          cases resS with
          | error u => simp at hC
          | ok u =>
            dsimp only at hC
            injection hC with h4 h5
            have h6 : fresh = sid := by injection h4
            obtain ⟨hfl, hneg, hshape⟩ := set_ok_inv r now (RKey.session fresh)
              (RVal.str uid) env.config.session.expirationDuration u r2 hS
            subst h5
            subst h6
            constructor
            · rw [hshape]
            · rw [← h3]

theorem loginByOAuth_ok_inv (env : AuthEnv) (r : Redis) (now : Int)
    (fresh ua ip : String) (req : LoginByOAuthRequest) (sess : LoginSession)
    (rOut : Redis)
    (h : LoginByOAuth env r now fresh ua ip req = (.ok sess, rOut)) :
    ¬ (req.code = "" ∨ req.state = "") ∧
    ∃ sd uid,
      validateState env r now req.state ua ip = (.ok sd, r) ∧
      r.flags.delFails = false ∧
      finishLogin env { r with kv := removeKey r.kv (RKey.oauthState req.state) }
        now fresh uid = (.ok sess, rOut) := by
  unfold LoginByOAuth at h
  by_cases hg : req.code = "" ∨ req.state = ""
  · rw [if_pos hg] at h; simp at h
  · rw [if_neg hg] at h
    refine ⟨hg, ?_⟩
    cases hV : validateState env r now req.state ua ip with
    | mk resV r1 =>
      rw [hV] at h
      cases resV with
      | error e => simp at h
      | ok sd =>
        dsimp only at h
        obtain ⟨hr1, hget, hexp⟩ :=
          validateState_ok_inv env r now req.state ua ip sd r1 hV
        rw [hr1] at hV h
        cases hD : deleteState r req.state with
        | mk resD r2 =>
          rw [hD] at h
          cases resD with
          | error u => simp at h
          | ok u =>
            dsimp only at h
            unfold deleteState at hD
            obtain ⟨hdfl, hr2⟩ := del_ok_inv r (RKey.oauthState req.state) u r2 hD
            subst hr2
            by_cases hP : oauthConfigHas sd.provider = true
            · rw [if_pos hP] at h
              cases hE : env.oauth.exchange req.code with
              | error u2 => rw [hE] at h; simp at h
              | ok atok =>
                rw [hE] at h
                dsimp only at h
                by_cases hP2 : getUserProviderOk sd.provider = true
                · rw [if_pos hP2] at h
                  cases hI : env.oauth.getUserInfo atok with
                  | error u3 => rw [hI] at h; simp at h
                  | ok info =>
                    rw [hI] at h
                    dsimp only at h
                    cases hGh : env.repo.getByGithubID info.id with
                    | error u4 => rw [hGh] at h; simp at h
                    | ok found =>
                      rw [hGh] at h
                      cases found with
                      | none =>
                        dsimp only at h
                        cases hCr : env.repo.create
                            { id := "", name := info.name, email := info.email,
                              hashedPassword := none, githubID := some info.id,
                              lastLoginAt := some now, role := UserRoleUser } with
                        | error u5 => rw [hCr] at h; simp at h
                        | ok user =>
                          rw [hCr] at h
                          dsimp only at h
                          exact ⟨sd, user.id, by rw [hr1], hdfl, h⟩
                      | some u0 =>
                        dsimp only at h
                        cases hUp : env.repo.update { u0 with lastLoginAt := some now } with
                        | error u6 => rw [hUp] at h; simp at h
                        | ok _ =>
                          rw [hUp] at h
                          dsimp only at h
                          exact ⟨sd, u0.id, by rw [hr1], hdfl, h⟩
                · rw [if_neg hP2] at h; simp at h
            · rw [if_neg hP] at h; simp at h

theorem loginByOAuth_missing_state (env : AuthEnv) (r : Redis) (now : Int)
    (fresh ua ip : String) (req : LoginByOAuthRequest)
    (hnone : r.lookup now (RKey.oauthState req.state) = none) :
    ∃ e2 r2, LoginByOAuth env r now fresh ua ip req = (.error e2, r2) ∧
      e2.code = Code.InvalidArgument := by
  unfold LoginByOAuth
  by_cases hg : req.code = "" ∨ req.state = ""
  · rw [if_pos hg]; exact ⟨_, _, rfl, rfl⟩
  · rw [if_neg hg]
    have hget : r.get now (RKey.oauthState req.state) = .error () := by
      unfold Redis.get
      cases hgf : r.flags.getFails with
      | true => simp [hgf]
      | false => simp [hgf, hnone]
    have hv : validateState env r now req.state ua ip =
        (.error ⟨.InvalidArgument, "invalid or expired state"⟩, r) := by
      unfold validateState
      rw [hget]
    rw [hv]
    exact ⟨_, _, rfl, rfl⟩

/-! ## Claim C2 -/

/-- Claim C2: OAuth state is single use. After a successful LoginByOAuth the
state record is gone from the store (at every later instant), and a second
LoginByOAuth presenting the same state fails with InvalidArgument, never with
a second successful login. -/
theorem oauthState_single_use (env : AuthEnv) (r rOut : Redis) (now now2 : Int)
    (fresh fresh2 ua ip ua2 ip2 : String) (req req2 : LoginByOAuthRequest)
    (sess : LoginSession)
    (hsame : req2.state = req.state)
    (h : LoginByOAuth env r now fresh ua ip req = (.ok sess, rOut)) :
    rOut.lookup now2 (RKey.oauthState req.state) = none ∧
    ∃ e2 r2, LoginByOAuth env rOut now2 fresh2 ua2 ip2 req2 = (.error e2, r2) ∧
      e2.code = Code.InvalidArgument := by
  obtain ⟨hguard, sd, uid, hV, hdfl, hFin⟩ :=
    loginByOAuth_ok_inv env r now fresh ua ip req sess rOut h
  obtain ⟨hshape, hsid⟩ := finishLogin_ok_inv env
    { r with kv := removeKey r.kv (RKey.oauthState req.state) }
    now fresh uid sess rOut hFin
  have hnone : rOut.lookup now2 (RKey.oauthState req.state) = none := by
    rw [hshape]
    show lookupKV _ now2 (RKey.oauthState req.state) = none
    rw [lookupKV_cons_ne _ _ now2 (RKey.oauthState req.state) (by simp)]
    rw [lookupKV_removeKey_ne _ now2 (RKey.session fresh)
      (RKey.oauthState req.state) (by simp)]
    exact lookupKV_removeKey_self _ now2 (RKey.oauthState req.state)
  refine ⟨hnone, ?_⟩
  apply loginByOAuth_missing_state env rOut now2 fresh2 ua2 ip2 req2
  rw [hsame]
  exact hnone

/-- Witness for C2: a concrete successful OAuth login followed by a replay of
the same state. -/
theorem oauthState_single_use_witness :
    wStateStoreOut.lookup 10 (RKey.oauthState ("s")) = none ∧
    ∃ e2 r2, LoginByOAuth wEnv wStateStoreOut 10 ("f2") ("") ("")
        ⟨"validcode", "s"⟩ = (.error e2, r2) ∧
      e2.code = Code.InvalidArgument :=
  oauthState_single_use wEnv wStateStore wStateStoreOut 0 10 ("f1") ("f2")
    ("") ("") ("") ("") ⟨"validcode", "s"⟩ ⟨"validcode", "s"⟩ ⟨"f1", 3600⟩
    rfl (by decide)

/-! ## Claim C3 -/

/-- Claim C3: nonce consumption is not an atomic get-and-delete. A successful
validateState leaves the store unchanged — the record is still present after
validation — so a second validation of the same state (as performed by a
concurrent completion that has not yet reached the separate DEL round trip)
succeeds again; the delete is a separate later command (deleteState) inside
LoginByOAuth. -/
theorem validateState_leaves_nonce (env : AuthEnv) (r : Redis) (now : Int)
    (st ua ip : String) (sd : OAuthStateData)
    (h : (validateState env r now st ua ip).1 = .ok sd) :
    (validateState env r now st ua ip).2 = r ∧
    r.lookup now (RKey.oauthState st) ≠ none ∧
    (validateState env ((validateState env r now st ua ip).2) now st ua ip).1 =
      .ok sd := by
  have hpair : validateState env r now st ua ip =
      (.ok sd, (validateState env r now st ua ip).2) := by rw [← h]
  obtain ⟨hr1eq, hget, hexp⟩ :=
    validateState_ok_inv env r now st ua ip sd _ hpair
  obtain ⟨hfl, e, hlook, hval⟩ :=
    get_ok_inv r now (RKey.oauthState st) (RVal.stateData sd) hget
  refine ⟨hr1eq, ?_, ?_⟩
  · rw [hlook]; simp
  · rw [hr1eq]; exact h

/-- Witness for C3 at a concrete store holding one live state record. -/
theorem validateState_leaves_nonce_witness :
    (validateState wEnv wStateStore 0 ("s") ("") ("")).2 = wStateStore ∧
    wStateStore.lookup 0 (RKey.oauthState ("s")) ≠ none ∧
    (validateState wEnv ((validateState wEnv wStateStore 0 ("s") ("") ("")).2)
        0 ("s") ("") ("")).1 = .ok wStateData :=
  validateState_leaves_nonce wEnv wStateStore 0 ("s") ("") ("") wStateData
    (by decide)

/-! ## Claim C5 -/

/-- Claim C5 counterexample: with a live valid state whose DEL round trip
fails, LoginByOAuth does not complete successfully: it fails with Internal
(failed to delete used state), contradicting the claim that a delete failure
is only logged. -/
theorem loginByOAuth_delete_failure_cex :
    (LoginByOAuth wEnv cexDelFailStore 0 ("f1") ("") ("")
        ⟨"validcode", "s"⟩).1 =
      .error ⟨Code.Internal, "failed to delete used state"⟩ := by decide

/-- Claim C5 (amended): if deleting the already-validated OAuth state fails,
the failure is not merely logged: LoginByOAuth fails with Internal (failed to
delete used state). Only the cleanup delete of an already-expired state is
log-only. -/
theorem delete_failure_fails_login (env : AuthEnv) (r : Redis) (now : Int)
    (fresh ua ip : String) (req : LoginByOAuthRequest) (sd : OAuthStateData)
    (hguard : ¬ (req.code = "" ∨ req.state = ""))
    (hVal : (validateState env r now req.state ua ip).1 = .ok sd)
    (hdel : r.flags.delFails = true) :
    (LoginByOAuth env r now fresh ua ip req).1 =
      .error ⟨Code.Internal, "failed to delete used state"⟩ := by
  have hpair : validateState env r now req.state ua ip =
      (.ok sd, (validateState env r now req.state ua ip).2) := by rw [← hVal]
  obtain ⟨hr1eq, hget, hexp⟩ :=
    validateState_ok_inv env r now req.state ua ip sd _ hpair
  rw [hr1eq] at hpair
  have hD : deleteState r req.state = (.error (), r) := by
    unfold deleteState Redis.del
    simp [hdel]
  unfold LoginByOAuth
  rw [if_neg hguard, hpair]
  dsimp only
  rw [hD]

/-- Witness for the amended C5 at a concrete store whose DEL fails. -/
theorem delete_failure_fails_login_witness :
    (LoginByOAuth wEnv cexDelFailStore 5 ("f1") ("") ("")
        ⟨"validcode", "s"⟩).1 =
      .error ⟨Code.Internal, "failed to delete used state"⟩ :=
  delete_failure_fails_login wEnv cexDelFailStore 5 ("f1") ("") ("")
    ⟨"validcode", "s"⟩ wStateData (by decide) (by decide) (by decide)

theorem filter_removeKey_comm (l : List REntry) (k : RKey) (p : REntry → Bool) :
    (removeKey l k).filter p = removeKey (l.filter p) k := by
  unfold removeKey
  induction l with
  | nil => rfl
  | cons e tl ih =>
    by_cases hk : (!(decide (e.key = k))) = true
    · by_cases hp : p e = true
      · simp [List.filter_cons, hk, hp, ih]
      · simp [List.filter_cons, hk, hp, ih]
    · by_cases hp : p e = true
      · simp [List.filter_cons, hk, hp, ih]
      · simp [List.filter_cons, hk, hp, ih]

theorem sessionEntries_removeKey_oauth (kv : List REntry) (f : FaultFlags)
    (st : String) :
    sessionEntries ⟨removeKey kv (RKey.oauthState st), f⟩ = sessionEntries ⟨kv, f⟩ := by
  show (removeKey kv _).filter _ = kv.filter _
  rw [filter_removeKey_comm]
  unfold removeKey
  rw [List.filter_eq_self.mpr]
  intro e he
  have hse := List.of_mem_filter he
  cases hke : e.key with
  | session i => simp [hke]
  | oauthState s0 => rw [hke] at hse; simp [isSessionKey] at hse

theorem sessionEntries_deleteState (r : Redis) (st : String) :
    sessionEntries (deleteState r st).2 = sessionEntries r := by
  unfold deleteState Redis.del
  cases hf : r.flags.delFails with
  | true => simp [hf]
  | false =>
    simp only [hf, Bool.false_eq_true, if_false]
    exact sessionEntries_removeKey_oauth r.kv r.flags st

theorem sessionEntries_validateState (env : AuthEnv) (r : Redis) (now : Int)
    (st ua ip : String) :
    sessionEntries (validateState env r now st ua ip).2 = sessionEntries r := by
  unfold validateState
  split
  · rfl
  · split
    · rfl
    · split
      · exact sessionEntries_deleteState r st
      · split
        · rfl
        · split
          · rfl
          · rfl

theorem set_error_inv (r : Redis) (now : Int) (k : RKey) (v : RVal) (ttl : Int)
    (u : Unit) (r1 : Redis) (h : r.set now k v ttl = (.error u, r1)) : r1 = r := by
  unfold Redis.set at h
  split at h
  · injection h with h1 h2; exact h2.symm
  · split at h
    · injection h with h1 h2; exact h2.symm
    · simp at h

theorem del_error_inv (r : Redis) (k : RKey) (u : Unit) (r1 : Redis)
    (h : r.del k = (.error u, r1)) : r1 = r := by
  unfold Redis.del at h
  split at h
  · injection h with h1 h2; exact h2.symm
  · simp at h

theorem createSession_error_inv (env : AuthEnv) (r : Redis) (now : Int)
    (fresh uid : String) (e : GrpcError) (r1 : Redis)
    (h : createSession env r now fresh uid = (.error e, r1)) : r1 = r := by
  unfold createSession at h
  cases hS : Redis.set r now (RKey.session fresh) (RVal.str uid)
      env.config.session.expirationDuration with
  | mk resS r2 =>
    rw [hS] at h
    cases resS with
    | ok u => simp at h
    | error u =>
      dsimp only at h
      injection h with h1 h2
      rw [← h2]
      exact set_error_inv r now (RKey.session fresh) (RVal.str uid)
        env.config.session.expirationDuration u r2 hS

theorem createSession_ok_inv (env : AuthEnv) (r : Redis) (now : Int)
    (fresh uid sid : String) (r1 : Redis)
    (h : createSession env r now fresh uid = (.ok sid, r1)) :
    sid = fresh ∧ r1 = { r with kv :=
      (⟨RKey.session fresh, RVal.str uid,
        if env.config.session.expirationDuration = 0 then none
        else some (now + env.config.session.expirationDuration)⟩ ::
        removeKey r.kv (RKey.session fresh)) } := by
  unfold createSession at h
  cases hS : Redis.set r now (RKey.session fresh) (RVal.str uid)
      env.config.session.expirationDuration with
  | mk resS r2 =>
    rw [hS] at h
    cases resS with
    | error u => simp at h
    | ok u =>
      dsimp only at h
      injection h with h1 h2
      have h3 : fresh = sid := by injection h1
      obtain ⟨hfl, hneg, hshape⟩ := set_ok_inv r now (RKey.session fresh)
        (RVal.str uid) env.config.session.expirationDuration u r2 hS
      exact ⟨h3.symm, by rw [← h2, hshape]⟩

theorem finishLogin_error_inv (env : AuthEnv) (r : Redis) (now : Int)
    (fresh uid : String) (err : GrpcError) (rOut : Redis)
    (h : finishLogin env r now fresh uid = (.error err, rOut)) :
    sessionEntries rOut = sessionEntries r ∨
    (err = ⟨Code.Internal, "failed to get session expiration"⟩ ∧
      sessionEntries rOut =
        ⟨RKey.session fresh, RVal.str uid,
          if env.config.session.expirationDuration = 0 then none
          else some (now + env.config.session.expirationDuration)⟩ ::
          removeKey (sessionEntries r) (RKey.session fresh)) := by
  unfold finishLogin at h
  cases hC : createSession env r now fresh uid with
  | mk resC r1 =>
    rw [hC] at h
    cases resC with
    | error e =>
      dsimp only at h
      injection h with h1 h2
      left
      rw [← h2, createSession_error_inv env r now fresh uid e r1 hC]
    | ok sid =>
      dsimp only at h
      cases hT : getSessionExpirationTime r1 now sid with
      | ok t => rw [hT] at h; simp at h
      | error e2 =>
        rw [hT] at h
        dsimp only at h
        injection h with h1 h2
        obtain ⟨hsid, hshape⟩ := createSession_ok_inv env r now fresh uid sid r1 hC
        right
        refine ⟨?_, ?_⟩
        · injection h1 with hx; exact hx.symm
        rw [← h2, hshape]
        show (_ :: removeKey r.kv (RKey.session fresh)).filter _ =
          _ :: removeKey (r.kv.filter _) (RKey.session fresh)
        rw [List.filter_cons_of_pos (by simp [isSessionKey])]
        rw [filter_removeKey_comm]

/-! ## Claim C4 -/

/-- Claim C4 counterexample: LoginByPassword against an empty session store
whose TTL read fails returns an error, yet the session record has been
created and committed — a failing login execution that leaves a session
behind. -/
theorem loginByPassword_partial_session_cex :
    (LoginByPassword wEnv cexTtlFailStore 0 ("f1") ⟨"a@b.c", "pw"⟩).1 =
      .error ⟨Code.Internal, "failed to get session expiration"⟩ ∧
    sessionEntries (LoginByPassword wEnv cexTtlFailStore 0 ("f1")
        ⟨"a@b.c", "pw"⟩).2 =
      [⟨RKey.session ("f1"), RVal.str ("u1"), some 3600⟩] := by decide

/-- Claim C4 (amended): a failing login flow (either LoginByOAuth or
LoginByPassword) leaves the session store unchanged, except in one case: when
the post-creation session-expiry read fails, the flow returns Internal
(failed to get session expiration) with the freshly created session already
committed. -/
theorem login_error_no_new_session (env : AuthEnv) (r rOut : Redis) (now : Int)
    (fresh : String) (call : LoginCall) (err : GrpcError)
    (h : runLogin env r now fresh call = (.error err, rOut)) :
    sessionEntries rOut = sessionEntries r ∨
    (err = ⟨Code.Internal, "failed to get session expiration"⟩ ∧
      ∃ v dl, sessionEntries rOut =
        ⟨RKey.session fresh, v, dl⟩ ::
          removeKey (sessionEntries r) (RKey.session fresh)) := by
  cases call with
  | password req =>
    unfold runLogin LoginByPassword at h
    dsimp only at h
    by_cases hg : req.email = "" ∨ req.password = ""
    · rw [if_pos hg] at h
      injection h with h1 h2
      left; rw [← h2]
    · rw [if_neg hg] at h
      cases hE : env.repo.getByEmail req.email with
      | error re =>
        cases re with
        | recordNotFound =>
          rw [hE] at h; dsimp only at h
          injection h with h1 h2; left; rw [← h2]
        | other =>
          rw [hE] at h; dsimp only at h
          injection h with h1 h2; left; rw [← h2]
      | ok user =>
        rw [hE] at h; dsimp only at h
        cases hP : user.hashedPassword with
        | none =>
          rw [hP] at h; dsimp only at h
          injection h with h1 h2; left; rw [← h2]
        | some hp =>
          rw [hP] at h; dsimp only at h
          cases hQ : env.verifyPassword req.password hp with
          | error u =>
            rw [hQ] at h; dsimp only at h
            injection h with h1 h2; left; rw [← h2]
          | ok b =>
            rw [hQ] at h
            cases b with
            | false =>
              dsimp only at h
              injection h with h1 h2; left; rw [← h2]
            | true =>
              dsimp only at h
              cases hU : env.repo.update
                  { user with hashedPassword := some hp, lastLoginAt := some now } with
              | error u =>
                rw [hU] at h; dsimp only at h
                injection h with h1 h2; left; rw [← h2]
              | ok u =>
                rw [hU] at h; dsimp only at h
                rcases finishLogin_error_inv env r now fresh user.id err rOut h with
                  hL | ⟨he, hR⟩
                · left; exact hL
                · right; exact ⟨he, _, _, hR⟩
  | oauth ua ip req =>
    unfold runLogin LoginByOAuth at h
    dsimp only at h
    by_cases hg : req.code = "" ∨ req.state = ""
    · rw [if_pos hg] at h
      injection h with h1 h2
      left; rw [← h2]
    · rw [if_neg hg] at h
      cases hV : validateState env r now req.state ua ip with
      | mk resV r1 =>
        rw [hV] at h
        cases resV with
        | error e =>
          dsimp only at h
          injection h with h1 h2
          left
          rw [← h2]
          have := sessionEntries_validateState env r now req.state ua ip
          rw [hV] at this
          exact this
        | ok sd =>
          dsimp only at h
          obtain ⟨hr1, hget, hexp⟩ :=
            validateState_ok_inv env r now req.state ua ip sd r1 hV
          subst hr1
          cases hD : deleteState r1 req.state with
          | mk resD r2 =>
            rw [hD] at h
            have hsessD : sessionEntries r2 = sessionEntries r1 := by
              have h9 := sessionEntries_deleteState r1 req.state
              rw [hD] at h9
              exact h9
            cases resD with
            | error u =>
              dsimp only at h
              injection h with h1 h2; left; rw [← h2]; exact hsessD
            | ok u =>
              dsimp only at h
              by_cases hPc : oauthConfigHas sd.provider = true
              · rw [if_pos hPc] at h
                cases hEx : env.oauth.exchange req.code with
                | error u2 =>
                  rw [hEx] at h; dsimp only at h
                  injection h with h1 h2; left; rw [← h2]; exact hsessD
                | ok atok =>
                  rw [hEx] at h; dsimp only at h
                  by_cases hPo : getUserProviderOk sd.provider = true
                  · rw [if_pos hPo] at h
                    cases hI : env.oauth.getUserInfo atok with
                    | error u3 =>
                      rw [hI] at h; dsimp only at h
                      injection h with h1 h2; left; rw [← h2]; exact hsessD
                    | ok info =>
                      rw [hI] at h; dsimp only at h
                      cases hGh : env.repo.getByGithubID info.id with
                      | error u4 =>
                        rw [hGh] at h; dsimp only at h
                        injection h with h1 h2; left; rw [← h2]; exact hsessD
                      | ok found =>
                        rw [hGh] at h
                        cases found with
                        | none =>
                          dsimp only at h
                          cases hCr : env.repo.create
                              { id := "", name := info.name, email := info.email,
                                hashedPassword := none, githubID := some info.id,
                                lastLoginAt := some now, role := UserRoleUser } with
                          | error u5 =>
                            rw [hCr] at h; dsimp only at h
                            injection h with h1 h2; left; rw [← h2]; exact hsessD
                          | ok user =>
                            rw [hCr] at h; dsimp only at h
                            rcases finishLogin_error_inv env r2 now fresh user.id
                                err rOut h with hL | ⟨he, hR⟩
                            · left; rw [hL]; exact hsessD
                            · right
                              exact ⟨he, RVal.str user.id,
                                (if env.config.session.expirationDuration = 0 then none
                                 else some (now + env.config.session.expirationDuration)),
                                hR.trans (by rw [hsessD])⟩
                        | some u0 =>
                          dsimp only at h
                          cases hUp : env.repo.update
                              { u0 with lastLoginAt := some now } with
                          | error u6 =>
                            rw [hUp] at h; dsimp only at h
                            injection h with h1 h2; left; rw [← h2]; exact hsessD
                          | ok _ =>
                            rw [hUp] at h; dsimp only at h
                            rcases finishLogin_error_inv env r2 now fresh u0.id
                                err rOut h with hL | ⟨he, hR⟩
                            · left; rw [hL]; exact hsessD
                            · right
                              exact ⟨he, RVal.str u0.id,
                                (if env.config.session.expirationDuration = 0 then none
                                 else some (now + env.config.session.expirationDuration)),
                                hR.trans (by rw [hsessD])⟩
                  · rw [if_neg hPo] at h
                    injection h with h1 h2; left; rw [← h2]; exact hsessD
              · rw [if_neg hPc] at h
                injection h with h1 h2; left; rw [← h2]; exact hsessD

/-- Witness for the amended C4: the same concrete failing password login. -/
theorem login_error_no_new_session_witness :
    sessionEntries (LoginByPassword wEnv cexTtlFailStore 0 ("f1")
        ⟨"a@b.c", "pw"⟩).2 = sessionEntries cexTtlFailStore ∨
    (GrpcError.mk Code.Internal ("failed to get session expiration") =
        ⟨Code.Internal, "failed to get session expiration"⟩ ∧
      ∃ v dl, sessionEntries (LoginByPassword wEnv cexTtlFailStore 0 ("f1")
          ⟨"a@b.c", "pw"⟩).2 =
        ⟨RKey.session ("f1"), v, dl⟩ ::
          removeKey (sessionEntries cexTtlFailStore) (RKey.session ("f1"))) := by
  have h := login_error_no_new_session wEnv cexTtlFailStore
    (LoginByPassword wEnv cexTtlFailStore 0 ("f1") ⟨"a@b.c", "pw"⟩).2 0 ("f1")
    (LoginCall.password ⟨"a@b.c", "pw"⟩)
    ⟨Code.Internal, "failed to get session expiration"⟩ (by decide)
  exact h

/-! ## Gate lemmas -/

theorem gate_user_path (pub : String → Bool)
    (jwtSecret internalToken fullMethod : String)
    (enfOpt : Option (String → String → Except Unit Bool)) (m : Metadata)
    (now : Int) (authHead : HeaderVal) (rest : List HeaderVal) (ui : UserInfo)
    (hpub : pub fullMethod = false)
    (htt : (match m.xTokenType with | [] => "user" | t :: _ => t) ≠ "internal")
    (hauth : m.authorization = authHead :: rest)
    (hparse : ParseUserToken (dropBearer authHead) jwtSecret now = some ui) :
    buildAuthInterceptor pub jwtSecret enfOpt internalToken fullMethod
        (some m) now =
      (match enfOpt with
       | none => GateOutcome.handler (some ui)
       | some enf =>
         match enf (convertRoleToString ui.role) fullMethod with
         | .error _ => GateOutcome.reject Code.Internal ("authorization check failed")
         | .ok false =>
             GateOutcome.reject Code.PermissionDenied ("insufficient permissions")
         | .ok true => GateOutcome.handler (some ui)) := by
  unfold buildAuthInterceptor
  rw [hpub]
  dsimp only
  rw [hauth]
  dsimp only
  rw [if_neg htt]
  rw [hparse]
  dsimp only
  cases enfOpt with
  | none => rfl
  | some enf =>
    dsimp only
    cases hE : enf (convertRoleToString ui.role) fullMethod with
    | error u => rfl
    | ok b => cases b <;> rfl

/-! ## Claim C6 -/

/-- Claim C6 counterexample: when the policy engine failed to construct
(enforcer nil), a protected, non-internal call whose token verifies reaches
the handler with no policy decision at all, while the same call under a
deny-all engine is rejected: the gate is fail-open on enforcer
initialization failure. -/
theorem gate_nil_enforcer_cex :
    buildAuthInterceptor (fun _ => false) ("sec") none ("itok")
        ("/UserService/DeleteUser") (some cexMd) 0 =
      GateOutcome.handler (some ⟨"u1", 2⟩) ∧
    buildAuthInterceptor (fun _ => false) ("sec") (some (fun _ _ => .ok false))
        ("itok") ("/UserService/DeleteUser") (some cexMd) 0 =
      GateOutcome.reject Code.PermissionDenied ("insufficient permissions") := by
  exact ⟨by decide, by decide⟩

/-- Claim C6 (amended): when the policy engine was constructed, every
protected, non-internal call whose bearer token verifies receives a policy
decision for (role, fullMethod): permitted invokes the handler with the
subject identity attached, denied rejects with PermissionDenied, and an
evaluation error rejects with Internal. When construction failed the
enforcer is nil and such calls reach the handler without any decision. -/
theorem gate_policy_decision (pub : String → Bool)
    (jwtSecret internalToken fullMethod : String)
    (enf : String → String → Except Unit Bool) (m : Metadata) (now : Int)
    (authHead : HeaderVal) (rest : List HeaderVal) (ui : UserInfo)
    (hpub : pub fullMethod = false)
    (htt : (match m.xTokenType with | [] => "user" | t :: _ => t) ≠ "internal")
    (hauth : m.authorization = authHead :: rest)
    (hparse : ParseUserToken (dropBearer authHead) jwtSecret now = some ui) :
    buildAuthInterceptor pub jwtSecret (some enf) internalToken fullMethod
        (some m) now =
      (match enf (convertRoleToString ui.role) fullMethod with
       | .error _ => GateOutcome.reject Code.Internal ("authorization check failed")
       | .ok false =>
           GateOutcome.reject Code.PermissionDenied ("insufficient permissions")
       | .ok true => GateOutcome.handler (some ui)) := by
  rw [gate_user_path pub jwtSecret internalToken fullMethod (some enf) m now
    authHead rest ui hpub htt hauth hparse]

/-- Witness for the amended C6 with a permitting engine. -/
theorem gate_policy_decision_witness :
    buildAuthInterceptor (fun _ => false) ("sec")
        (some (fun ro _ => .ok (ro == "admin"))) ("itok")
        ("/UserService/DeleteUser") (some cexMd) 0 =
      (match (fun (ro : String) (_ : String) => Except.ok (ε := Unit) (ro == "admin"))
          (convertRoleToString (UserInfo.mk "u1" 2).role) ("/UserService/DeleteUser") with
       | .error _ => GateOutcome.reject Code.Internal ("authorization check failed")
       | .ok false =>
           GateOutcome.reject Code.PermissionDenied ("insufficient permissions")
       | .ok true => GateOutcome.handler (some ⟨"u1", 2⟩)) :=
  gate_policy_decision (fun _ => false) ("sec") ("itok")
    ("/UserService/DeleteUser") (fun ro _ => .ok (ro == "admin")) cexMd 0
    (HeaderVal.jwtVal cexJwt) [] ⟨"u1", 2⟩ rfl (by decide) rfl (by decide)

/-! ## Claim C9 -/

/-- Claim C9: every unrecognized role numeral deserializes to the user role:
model.UserRole.FromPb coerces it to the user role string,
convertRoleToString coerces it to the user role name, and on a call whose
verified token carries that unrecognized numeral the gate asks the policy
engine with role user. -/
theorem unknown_role_defaults_user (n : Int) (pub : String → Bool)
    (jwtSecret internalToken fullMethod : String)
    (enf : String → String → Except Unit Bool) (m : Metadata) (now : Int)
    (t : SignedJWT) (rest : List HeaderVal)
    (hn1 : n ≠ USER_ROLE_USER) (hn2 : n ≠ USER_ROLE_ADMIN)
    (hpub : pub fullMethod = false)
    (htt : (match m.xTokenType with | [] => "user" | s :: _ => s) ≠ "internal")
    (hauth : m.authorization = HeaderVal.jwtVal t :: rest)
    (hrole : t.claims.user_role = n)
    (hsig : t.sigSecret = jwtSecret) (hexp : now < t.claims.exp) :
    UserRole.fromPb n = UserRoleUser ∧
    convertRoleToString n = UserRoleUser.val ∧
    buildAuthInterceptor pub jwtSecret (some enf) internalToken fullMethod
        (some m) now =
      (match enf (UserRoleUser.val) fullMethod with
       | .error _ => GateOutcome.reject Code.Internal ("authorization check failed")
       | .ok false =>
           GateOutcome.reject Code.PermissionDenied ("insufficient permissions")
       | .ok true =>
           GateOutcome.handler (some ⟨t.claims.user_id, n⟩)) := by
  have hfrom : UserRole.fromPb n = UserRoleUser := by
    unfold UserRole.fromPb
    rw [if_neg hn1, if_neg hn2]
  have hconv : convertRoleToString n = UserRoleUser.val := by
    unfold convertRoleToString
    rw [if_neg hn2, if_neg hn1]
  have hparse : ParseUserToken (dropBearer (HeaderVal.jwtVal t)) jwtSecret now =
      some ⟨t.claims.user_id, n⟩ := by
    simp only [dropBearer, ParseUserToken]
    unfold ValidateUserToken
    rw [if_pos ⟨hsig, hexp⟩]
    show some (UserInfo.mk t.claims.user_id t.claims.user_role) =
      some (UserInfo.mk t.claims.user_id n)
    rw [hrole]
  refine ⟨hfrom, hconv, ?_⟩
  rw [gate_user_path pub jwtSecret internalToken fullMethod (some enf) m now
    (HeaderVal.jwtVal t) rest ⟨t.claims.user_id, n⟩ hpub htt hauth hparse]
  dsimp only
  rw [hconv]

/-- Witness for C9 with the unrecognized role numeral 7. -/
theorem unknown_role_defaults_user_witness :
    UserRole.fromPb 7 = UserRoleUser ∧
    convertRoleToString 7 = UserRoleUser.val ∧
    buildAuthInterceptor (fun _ => false) ("sec")
        (some (fun ro _ => .ok (ro == "admin"))) ("itok")
        ("/UserService/GetUser")
        (some ⟨[], [HeaderVal.jwtVal ⟨⟨"u9", 7, 10⟩, "sec"⟩]⟩) 0 =
      (match (fun (ro : String) (_ : String) => Except.ok (ε := Unit) (ro == "admin"))
          (UserRoleUser.val) ("/UserService/GetUser") with
       | .error _ => GateOutcome.reject Code.Internal ("authorization check failed")
       | .ok false =>
           GateOutcome.reject Code.PermissionDenied ("insufficient permissions")
       | .ok true =>
           GateOutcome.handler
             (some ⟨(SignedJWT.mk ⟨"u9", 7, 10⟩ ("sec")).claims.user_id, 7⟩)) :=
  unknown_role_defaults_user 7 (fun _ => false) ("sec") ("itok")
    ("/UserService/GetUser") (fun ro _ => .ok (ro == "admin"))
    ⟨[], [HeaderVal.jwtVal ⟨⟨"u9", 7, 10⟩, "sec"⟩]⟩ 0 ⟨⟨"u9", 7, 10⟩, "sec"⟩ []
    (by decide) (by decide) rfl (by decide) rfl rfl rfl (by decide)

/-! ## Claim C10 -/

/-- Claim C10: with an empty configured internal secret, any protected call
carrying x-token-type internal and an authorization value that is empty after
stripping the Bearer prefix is admitted to the handler, with no token
verification and no policy decision (the outcome does not depend on the jwt
secret or on the enforcer). -/
theorem empty_internal_token_bypass (pub : String → Bool)
    (jwtSecret fullMethod : String)
    (enfOpt : Option (String → String → Except Unit Bool)) (m : Metadata)
    (now : Int) (sHdr : String) (restT : List String) (rest : List HeaderVal)
    (hpub : pub fullMethod = false)
    (htt : m.xTokenType = "internal" :: restT)
    (hauth : m.authorization = HeaderVal.plain sHdr :: rest)
    (htrim : (if ("Bearer ").data.isPrefixOf sHdr.data then
        String.mk (sHdr.data.drop ("Bearer ").length) else sHdr) = "") :
    buildAuthInterceptor pub jwtSecret enfOpt ("") fullMethod (some m) now =
      GateOutcome.handler none := by
  obtain ⟨tts, auths⟩ := m
  dsimp only at htt hauth
  subst htt
  subst hauth
  unfold buildAuthInterceptor
  rw [hpub]
  simp only [Bool.false_eq_true, if_false, dropBearer]
  rw [if_pos trivial]
  rw [if_neg (fun hne => hne htrim)]

/-- Witness for C10: the literal header value Bearer followed by a space. -/
theorem empty_internal_token_bypass_witness :
    buildAuthInterceptor (fun _ => false) ("sec")
        (some (fun _ _ => .ok false)) ("") ("/UserService/DeleteUser")
        (some ⟨["internal"], [HeaderVal.plain ("Bearer ")]⟩) 0 =
      GateOutcome.handler none :=
  empty_internal_token_bypass (fun _ => false) ("sec")
    ("/UserService/DeleteUser") (some (fun _ _ => .ok false))
    ⟨["internal"], [HeaderVal.plain ("Bearer ")]⟩ 0 ("Bearer ") [] []
    rfl rfl rfl (by decide)

/-! ## Claim C8 -/

/-- Claim C8: the user-agent/IP consistency check during state validation is
soft. Given a live, unexpired state record: any validation failure is
InvalidArgument and occurs only when, for one of the two attributes, both the
recorded and the supplied value are nonempty and differ; whenever either side
of a check is empty that check never blocks; and when both checks pass or are
skipped, validation succeeds. -/
theorem hijack_check_soft (env : AuthEnv) (r : Redis) (now : Int)
    (st ua ip : String) (e : REntry) (sd : OAuthStateData)
    (hfl : r.flags.getFails = false)
    (hlook : r.lookup now (RKey.oauthState st) = some e)
    (hval : e.val = RVal.stateData sd)
    (hexp : ¬ now > sd.expiresAt) :
    ((sd.userAgent = "" ∨ ua = "") →
      (validateState env r now st ua ip).1 ≠
        .error ⟨Code.InvalidArgument,
          "user agent mismatch - possible session hijacking"⟩) ∧
    ((sd.ipAddress = "" ∨ ip = "") →
      (validateState env r now st ua ip).1 ≠
        .error ⟨Code.InvalidArgument,
          "IP address mismatch - possible session hijacking"⟩) ∧
    (∀ err, (validateState env r now st ua ip).1 = .error err →
      err.code = Code.InvalidArgument ∧
      ((sd.userAgent ≠ "" ∧ ua ≠ "" ∧ sd.userAgent ≠ ua) ∨
       (sd.ipAddress ≠ "" ∧ ip ≠ "" ∧ sd.ipAddress ≠ ip))) ∧
    (((sd.userAgent = "" ∨ ua = "" ∨ sd.userAgent = ua) ∧
      (sd.ipAddress = "" ∨ ip = "" ∨ sd.ipAddress = ip)) →
      (validateState env r now st ua ip).1 = .ok sd) := by
  have hg : r.get now (RKey.oauthState st) = .ok (RVal.stateData sd) := by
    unfold Redis.get
    rw [hfl]
    simp only [Bool.false_eq_true, if_false]
    rw [hlook]
    show Except.ok e.val = Except.ok (RVal.stateData sd)
    rw [hval]
  have hvs : (validateState env r now st ua ip).1 =
      (if sd.userAgent ≠ "" ∧ ua ≠ "" ∧ sd.userAgent ≠ ua then
        .error ⟨Code.InvalidArgument,
          "user agent mismatch - possible session hijacking"⟩
      else if sd.ipAddress ≠ "" ∧ ip ≠ "" ∧ sd.ipAddress ≠ ip then
        .error ⟨Code.InvalidArgument,
          "IP address mismatch - possible session hijacking"⟩
      else .ok sd) := by
    unfold validateState
    rw [hg]
    dsimp only
    rw [if_neg hexp]
    by_cases hua : sd.userAgent ≠ "" ∧ ua ≠ "" ∧ sd.userAgent ≠ ua
    · rw [if_pos hua, if_pos hua]
    · rw [if_neg hua, if_neg hua]
      by_cases hip : sd.ipAddress ≠ "" ∧ ip ≠ "" ∧ sd.ipAddress ≠ ip
      · rw [if_pos hip, if_pos hip]
      · rw [if_neg hip, if_neg hip]
  rw [hvs]
  by_cases hua : sd.userAgent ≠ "" ∧ ua ≠ "" ∧ sd.userAgent ≠ ua
  · rw [if_pos hua]
    refine ⟨?_, ?_, ?_, ?_⟩
    · intro hside hc
      rcases hside with h1 | h1
      · exact hua.1 h1
      · exact hua.2.1 h1
    · intro hside hc
      have : ("user agent mismatch - possible session hijacking" : String) =
          "IP address mismatch - possible session hijacking" := by
        injection (by injection hc : GrpcError.mk Code.InvalidArgument
          ("user agent mismatch - possible session hijacking") =
          ⟨Code.InvalidArgument,
            "IP address mismatch - possible session hijacking"⟩)
      exact absurd this (by decide)
    · intro err heq
      have h2 : GrpcError.mk Code.InvalidArgument
          ("user agent mismatch - possible session hijacking") = err := by
        injection heq
      exact ⟨by rw [← h2], Or.inl hua⟩
    · intro hboth
      rcases hboth.1 with h1 | h1 | h1
      · exact absurd h1 hua.1
      · exact absurd h1 hua.2.1
      · exact absurd h1 hua.2.2
  · rw [if_neg hua]
    by_cases hip : sd.ipAddress ≠ "" ∧ ip ≠ "" ∧ sd.ipAddress ≠ ip
    · rw [if_pos hip]
      refine ⟨?_, ?_, ?_, ?_⟩
      · intro hside hc
        have : ("IP address mismatch - possible session hijacking" : String) =
            "user agent mismatch - possible session hijacking" := by
          injection (by injection hc : GrpcError.mk Code.InvalidArgument
            ("IP address mismatch - possible session hijacking") =
            ⟨Code.InvalidArgument,
              "user agent mismatch - possible session hijacking"⟩)
        exact absurd this (by decide)
      · intro hside hc
        rcases hside with h1 | h1
        · exact hip.1 h1
        · exact hip.2.1 h1
      · intro err heq
        have h2 : GrpcError.mk Code.InvalidArgument
            ("IP address mismatch - possible session hijacking") = err := by
          injection heq
        exact ⟨by rw [← h2], Or.inr hip⟩
      · intro hboth
        rcases hboth.2 with h1 | h1 | h1
        · exact absurd h1 hip.1
        · exact absurd h1 hip.2.1
        · exact absurd h1 hip.2.2
    · rw [if_neg hip]
      refine ⟨?_, ?_, ?_, ?_⟩
      · intro hside hc; exact Except.noConfusion hc
      · intro hside hc; exact Except.noConfusion hc
      · intro err heq; exact absurd heq (by simp)
      · intro hboth; rfl

/-- Witness for C8: a record that captured no user agent and no IP never
blocks, whatever the caller supplies. -/
theorem hijack_check_soft_witness :
    ((wStateData.userAgent = "" ∨ ("ua2" : String) = "") →
      (validateState wEnv wStateStore 0 ("s") ("ua2") ("9.9.9.9")).1 ≠
        .error ⟨Code.InvalidArgument,
          "user agent mismatch - possible session hijacking"⟩) ∧
    ((wStateData.ipAddress = "" ∨ ("9.9.9.9" : String) = "") →
      (validateState wEnv wStateStore 0 ("s") ("ua2") ("9.9.9.9")).1 ≠
        .error ⟨Code.InvalidArgument,
          "IP address mismatch - possible session hijacking"⟩) ∧
    (∀ err, (validateState wEnv wStateStore 0 ("s") ("ua2") ("9.9.9.9")).1 =
        .error err →
      err.code = Code.InvalidArgument ∧
      ((wStateData.userAgent ≠ "" ∧ ("ua2" : String) ≠ "" ∧
          wStateData.userAgent ≠ "ua2") ∨
       (wStateData.ipAddress ≠ "" ∧ ("9.9.9.9" : String) ≠ "" ∧
          wStateData.ipAddress ≠ "9.9.9.9"))) ∧
    (((wStateData.userAgent = "" ∨ ("ua2" : String) = "" ∨
         wStateData.userAgent = "ua2") ∧
      (wStateData.ipAddress = "" ∨ ("9.9.9.9" : String) = "" ∨
         wStateData.ipAddress = "9.9.9.9")) →
      (validateState wEnv wStateStore 0 ("s") ("ua2") ("9.9.9.9")).1 =
        .ok wStateData) :=
  hijack_check_soft wEnv wStateStore 0 ("s") ("ua2") ("9.9.9.9")
    ⟨RKey.oauthState ("s"), RVal.stateData wStateData, some 600⟩ wStateData
    (by decide) (by decide) (by decide) (by decide)

end AuthPortal
